import Mathlib

/-!
# Verification of the Snake game engine (`src/components/GameBoard.tsx`)

A shallow embedding of the game logic of the `SnakeGame` React component.
The component keeps its whole state in hooks; we collect those hook values
in one record, `GameState`, and render each handler as a pure state
transformer:

* `moveSnake` — the body of the game-loop callback (one tick); it takes,
  besides the pre-tick state, the snake list the callback's closure
  captured when the game-loop effect last ran its setup — `snake` is
  missing from that effect's dependency array, so this captured list can
  lag the live snake by any number of pure-movement ticks, and it is the
  list the eat branch's rejection loop checks;
* `handleKeyDown` — the keyboard handler (arrow keys and space);
* `pauseButtonClick` — the on-screen Pause button (it has no game-over
  guard, unlike the space key);
* `initGame` — the Restart / Play Again handler;
* `highScoreEffect` — the `useEffect` that promotes `score` to `highScore`
  when the game is over.

`Math.random()` is modelled by an injected list of raw draw pairs: each call
of `generateFood` consumes one pair `(rx, ry)` and reduces it into the grid
with `% GRID_SIZE`, exactly the range `Math.floor(Math.random() * GRID_SIZE)`
produces. The rejection loop in the eat branch walks that list; when the
list is exhausted the loop in the source would still be spinning, so the
model returns `none` there (and when the snake list is empty, where the
source would read `prevSnake[0]` as `undefined`).

`step` packages one externally observable operation (a scheduled tick, a
key event, a button click) followed by the high-score effect, and `runOps`
folds a list of operations, giving the session-level semantics used by the
monotonicity and trace statements.
-/

/-- Grid side length (`GRID_SIZE = 20`). -/
def GRID_SIZE : Nat := 20

/-- Initial tick interval in ms (`INITIAL_SPEED = 150`). -/
def INITIAL_SPEED : Nat := 150

/-- A grid coordinate pair (`type Position = { x, y }`). Coordinates are
integers so that stepping off the left or top edge is representable. -/
structure Pos where
  x : Int
  y : Int
deriving DecidableEq, Repr

/-- Movement direction (`type Direction`). -/
inductive Direction where
  | UP
  | DOWN
  | LEFT
  | RIGHT
deriving DecidableEq, Repr

/-- The direct opposite of a direction (UP↔DOWN, LEFT↔RIGHT). -/
def Direction.opposite : Direction → Direction
  | .UP => .DOWN
  | .DOWN => .UP
  | .LEFT => .RIGHT
  | .RIGHT => .LEFT

/-- The component's state hooks, collected into one record. -/
structure GameState where
  snake : List Pos
  food : Pos
  direction : Direction
  gameOver : Bool
  isPaused : Bool
  score : Nat
  highScore : Nat
  speed : Nat
deriving DecidableEq, Repr

/-- The state at initial mount: the `useState` initializers
(`snake = [(10,10)]`, `food = (5,5)`, `direction = RIGHT`, paused). -/
def initialState : GameState :=
  { snake := [⟨10, 10⟩]
    food := ⟨5, 5⟩
    direction := .RIGHT
    gameOver := false
    isPaused := true
    score := 0
    highScore := 0
    speed := INITIAL_SPEED }

/-- The injected stream of raw random draws, one pair per
`generateFood()` call. -/
abbrev Rng := List (Nat × Nat)

/-- `generateFood`: one random cell. Each axis is
`Math.floor(Math.random() * GRID_SIZE)`, modelled as a raw draw reduced
modulo `GRID_SIZE`. No validity check. -/
def generateFood (rx ry : Nat) : Pos :=
  ⟨Int.ofNat (rx % GRID_SIZE), Int.ofNat (ry % GRID_SIZE)⟩

/-- `isPositionOccupied`: whether some snake segment equals `pos`
(`snake.some(segment => segment.x === pos.x && segment.y === pos.y)`). -/
def isPositionOccupied (snake : List Pos) (pos : Pos) : Bool :=
  snake.any fun segment => segment.x == pos.x && segment.y == pos.y

/-- The eat branch's rejection loop: draw with `generateFood`, redraw while
`isPositionOccupied` holds against `snake` — in the source that argument is
the `snake` hook value the closure captured at the game-loop effect's last
setup, not the updater's fresh `prevSnake`. Returns the placed cell and the
unconsumed draws, or `none` when the draw list runs out (the source loop
would still be running). -/
def rejectLoop (snake : List Pos) : Rng → Option (Pos × Rng)
  | [] => none
  | (rx, ry) :: rest =>
      if isPositionOccupied snake (generateFood rx ry) then rejectLoop snake rest
      else some (generateFood rx ry, rest)

/-- The head cell moved one unit in a direction (the `switch (direction)`
at the top of `moveSnake`). -/
def newHead (head : Pos) : Direction → Pos
  | .UP => { head with y := head.y - 1 }
  | .DOWN => { head with y := head.y + 1 }
  | .LEFT => { head with x := head.x - 1 }
  | .RIGHT => { head with x := head.x + 1 }

/-- The wall-collision test of `moveSnake`:
`head.x < 0 || head.x >= GRID_SIZE || head.y < 0 || head.y >= GRID_SIZE`. -/
def wallHit (p : Pos) : Bool :=
  decide (p.x < 0 ∨ (GRID_SIZE : Int) ≤ p.x ∨ p.y < 0 ∨ (GRID_SIZE : Int) ≤ p.y)

/-- One tick: the body of the `setSnake` updater in the game-loop effect,
together with the `setFood`/`setScore`/`setSpeed`/`setGameOver` calls it
makes. The wall and self-collision tests read the updater's fresh
`prevSnake` (`s.snake`) and only set `gameOver`; otherwise the new head is
prepended, and either the food is re-placed by the rejection loop or the
tail is dropped (`newSnake.pop()`). Two values come from the effect
closure rather than the updater: the `score` the speed ramp tests is the
pre-increment closure value (fresh — `score` is in the dependency array),
and `closureSnake` is the snake list `isPositionOccupied` closes over,
captured at the effect's last setup — `snake` is NOT in the dependency
array, so after n pure-movement ticks this list is n ticks stale; it
equals `s.snake` only when some dependency changed since the snake last
moved. -/
def moveSnake (closureSnake : List Pos) (rng : Rng) (s : GameState) :
    Option (GameState × Rng) :=
  match s.snake with
  | [] => none
  | head0 :: _ =>
    if wallHit (newHead head0 s.direction) then
      some ({ s with gameOver := true }, rng)
    else if isPositionOccupied s.snake (newHead head0 s.direction) then
      some ({ s with gameOver := true }, rng)
    else if (newHead head0 s.direction).x == s.food.x
            && (newHead head0 s.direction).y == s.food.y then
      match rejectLoop closureSnake rng with
      | none => none
      | some (newFood, rng') =>
          some ({ s with
                    snake := newHead head0 s.direction :: s.snake
                    food := newFood
                    score := s.score + 10
                    speed := if 0 < s.score ∧ s.score % 50 = 0
                             then max (s.speed - 10) 50 else s.speed }, rng')
    else
      some ({ s with snake := (newHead head0 s.direction :: s.snake).dropLast }, rng)

/-- Keys the component reacts to: the four arrows and space. -/
inductive Key where
  | ArrowUp
  | ArrowDown
  | ArrowLeft
  | ArrowRight
  | Space
deriving DecidableEq, Repr

/-- The direction an arrow key requests (`none` for space). -/
def requestedDirection : Key → Option Direction
  | .ArrowUp => some .UP
  | .ArrowDown => some .DOWN
  | .ArrowLeft => some .LEFT
  | .ArrowRight => some .RIGHT
  | .Space => none

/-- `handleKeyDown`: early return when `gameOver`; each arrow is accepted
unless the stored direction is its direct opposite; space flips
`isPaused`. -/
def handleKeyDown (k : Key) (s : GameState) : GameState :=
  if s.gameOver then s
  else
    match k with
    | .ArrowUp => if s.direction ≠ .DOWN then { s with direction := .UP } else s
    | .ArrowDown => if s.direction ≠ .UP then { s with direction := .DOWN } else s
    | .ArrowLeft => if s.direction ≠ .RIGHT then { s with direction := .LEFT } else s
    | .ArrowRight => if s.direction ≠ .LEFT then { s with direction := .RIGHT } else s
    | .Space => { s with isPaused := !s.isPaused }

/-- The on-screen Pause button: `onClick={() => setIsPaused(prev => !prev)}`,
with no game-over guard. -/
def pauseButtonClick (s : GameState) : GameState :=
  { s with isPaused := !s.isPaused }

/-- `initGame` (Restart / Play Again): reset every field to its default —
food from one `generateFood()` draw with no occupancy check — leaving
`highScore` alone. -/
def initGame (r : Nat × Nat) (s : GameState) : GameState :=
  { s with
      snake := [⟨10, 10⟩]
      direction := .RIGHT
      food := generateFood r.1 r.2
      gameOver := false
      score := 0
      speed := INITIAL_SPEED
      isPaused := false }

/-- The high-score `useEffect`:
`if (gameOver && score > highScore) setHighScore(score)`. -/
def highScoreEffect (s : GameState) : GameState :=
  if s.gameOver ∧ s.highScore < s.score then { s with highScore := s.score } else s

/-- One externally triggered operation: a scheduled tick, a key event, a
Pause-button click, or a Restart-button click. -/
inductive Op where
  | tick
  | key (k : Key)
  | pauseClick
  | restartClick
deriving DecidableEq, Repr

/-- One operation followed by the high-score effect. A tick is scheduled
only while `!isPaused && !gameOver`, so `tick` leaves other states alone;
`restartClick` consumes one raw draw for the unvalidated food placement.
The tick instantiates `moveSnake`'s captured closure list with the live
snake — the executions in which some effect dependency changed since the
snake last moved. The captured list only selects which cell an eat places,
a cell no theorem stated over `step` constrains, so every `step`-level
statement below also holds of the stale-closure executions. -/
def step (op : Op) : GameState × Rng → Option (GameState × Rng)
  | (s, rng) =>
    match op with
    | .tick =>
        if s.isPaused || s.gameOver then some (highScoreEffect s, rng)
        else
          match moveSnake s.snake rng s with
          | none => none
          | some (s', rng') => some (highScoreEffect s', rng')
    | .key k => some (highScoreEffect (handleKeyDown k s), rng)
    | .pauseClick => some (highScoreEffect (pauseButtonClick s), rng)
    | .restartClick =>
        match rng with
        | [] => none
        | r :: rng' => some (highScoreEffect (initGame r s), rng')

/-- A whole session: fold a list of operations through `step`. -/
def runOps : List Op → GameState × Rng → Option (GameState × Rng)
  | [], sr => some sr
  | op :: ops, sr =>
      match step op sr with
      | none => none
      | some sr' => runOps ops sr'

/-! ## Helper lemmas -/

/-- Unfolding lemma for `moveSnake` once the snake is known nonempty. -/
theorem moveSnake_cons (closureSnake : List Pos) (s : GameState) (head0 : Pos)
    (tail : List Pos) (rng : Rng) (hs : s.snake = head0 :: tail) :
    moveSnake closureSnake rng s =
      (if wallHit (newHead head0 s.direction) then
        some ({ s with gameOver := true }, rng)
      else if isPositionOccupied s.snake (newHead head0 s.direction) then
        some ({ s with gameOver := true }, rng)
      else if (newHead head0 s.direction).x == s.food.x
              && (newHead head0 s.direction).y == s.food.y then
        match rejectLoop closureSnake rng with
        | none => none
        | some (newFood, rng') =>
            some ({ s with
                      snake := newHead head0 s.direction :: s.snake
                      food := newFood
                      score := s.score + 10
                      speed := if 0 < s.score ∧ s.score % 50 = 0
                               then max (s.speed - 10) 50 else s.speed }, rng')
      else
        some ({ s with snake := (newHead head0 s.direction :: s.snake).dropLast }, rng)) := by
  unfold moveSnake
  rw [hs]

/-- The high-score effect changes no field but `highScore`. -/
theorem highScoreEffect_projections (s : GameState) :
    (highScoreEffect s).snake = s.snake ∧ (highScoreEffect s).food = s.food ∧
    (highScoreEffect s).direction = s.direction ∧ (highScoreEffect s).gameOver = s.gameOver ∧
    (highScoreEffect s).isPaused = s.isPaused ∧ (highScoreEffect s).score = s.score ∧
    (highScoreEffect s).speed = s.speed := by
  unfold highScoreEffect
  split <;> simp

/-- The keyboard handler changes neither the snake nor the food nor the
score-keeping fields. -/
theorem handleKeyDown_projections (k : Key) (s : GameState) :
    (handleKeyDown k s).snake = s.snake ∧ (handleKeyDown k s).food = s.food ∧
    (handleKeyDown k s).gameOver = s.gameOver ∧ (handleKeyDown k s).score = s.score ∧
    (handleKeyDown k s).highScore = s.highScore ∧ (handleKeyDown k s).speed = s.speed := by
  unfold handleKeyDown
  split
  · simp
  · cases k <;> dsimp only <;> (try split) <;> simp

/-! ## Claims -/

/-- C9: the Restart button can be pressed in every state. It rebuilds the
state from the defaults — snake `[(10,10)]`, direction RIGHT, food from one
unvalidated random draw, score 0, initial speed, unpaused, not over — and
carries `highScore` over unchanged, whatever the prior `score` was: the
high-score effect does not fire because the rebuilt state has
`gameOver = false`. -/
theorem C9_restart_any_state (s : GameState) (r : Nat × Nat) (rng : Rng) :
    step Op.restartClick (s, r :: rng) =
      some ({ snake := [⟨10, 10⟩]
              food := generateFood r.1 r.2
              direction := .RIGHT
              gameOver := false
              isPaused := false
              score := 0
              highScore := s.highScore
              speed := INITIAL_SPEED }, rng) := by
  simp [step, initGame, highScoreEffect]

/-- Whether this tick's new head lands on the food (the eat test of
`moveSnake`, read off the pre-tick state). -/
def eatsFood (s : GameState) : Bool :=
  match s.snake with
  | [] => false
  | head0 :: _ =>
      (newHead head0 s.direction).x == s.food.x && (newHead head0 s.direction).y == s.food.y

/-- A successful tick either leaves the food and the random stream alone, or
its new head was on the food. -/
theorem moveSnake_food_cases (closureSnake : List Pos) (s t : GameState) (rng rng₂ : Rng)
    (h : moveSnake closureSnake rng s = some (t, rng₂)) :
    (t.food = s.food ∧ rng₂ = rng) ∨ eatsFood s = true := by
  cases hs : s.snake with
  | nil => rw [moveSnake, hs] at h; cases h
  | cons head0 tail =>
    rw [moveSnake_cons closureSnake s head0 tail rng hs] at h
    split at h
    · cases h; exact Or.inl ⟨rfl, rfl⟩
    · split at h
      · cases h; exact Or.inl ⟨rfl, rfl⟩
      · split at h
        · refine Or.inr ?_
          unfold eatsFood
          rw [hs]
          assumption
        · cases h; exact Or.inl ⟨rfl, rfl⟩

/-- C10: at initial mount the food is the fixed cell (5, 5) straight from
the `useState` initializer — no random draw, no occupancy check — and no
operation other than a restart or an eating tick moves the food or consumes
a random draw. -/
theorem C10_fixed_initial_food (op : Op) (s s' : GameState) (rng rng' : Rng)
    (hstep : step op (s, rng) = some (s', rng')) :
    initialState.food = ⟨5, 5⟩ ∧
    (s'.food = s.food ∧ rng' = rng ∨ op = Op.restartClick ∨
      (op = Op.tick ∧ s.isPaused = false ∧ s.gameOver = false ∧ eatsFood s = true)) := by
  refine ⟨rfl, ?_⟩
  cases op with
  | tick =>
    rw [step] at hstep
    split at hstep
    · cases hstep
      exact Or.inl ⟨(highScoreEffect_projections s).2.1, rfl⟩
    · rename_i hplay
      cases hmove : moveSnake s.snake rng s with
      | none => rw [hmove] at hstep; cases hstep
      | some p =>
        obtain ⟨t, rng₂⟩ := p
        rw [hmove] at hstep
        dsimp only at hstep
        simp only [Option.some.injEq, Prod.mk.injEq] at hstep
        obtain ⟨h1, h2⟩ := hstep
        subst h1
        subst h2
        rcases moveSnake_food_cases s.snake s t rng rng₂ hmove with ⟨hf, hr⟩ | heat
        · exact Or.inl ⟨(highScoreEffect_projections t).2.1.trans hf, hr⟩
        · simp only [Bool.or_eq_true] at hplay
          push_neg at hplay
          exact Or.inr (Or.inr ⟨rfl, by simpa using hplay.1, by simpa using hplay.2, heat⟩)
  | key k =>
    rw [step] at hstep
    cases hstep
    exact Or.inl ⟨(highScoreEffect_projections _).2.1.trans (handleKeyDown_projections k s).2.1, rfl⟩
  | pauseClick =>
    rw [step] at hstep
    cases hstep
    exact Or.inl ⟨(highScoreEffect_projections _).2.1, rfl⟩
  | restartClick => exact Or.inr (Or.inl rfl)

/-- Witness for C10 at a concrete step: a Pause click on the mount state. -/
theorem C10_witness :
    initialState.food = ⟨5, 5⟩ ∧
    (({ initialState with isPaused := false } : GameState).food = initialState.food ∧
        ([] : Rng) = [] ∨
      Op.pauseClick = Op.restartClick ∨
      (Op.pauseClick = Op.tick ∧ initialState.isPaused = false ∧
        initialState.gameOver = false ∧ eatsFood initialState = true)) :=
  C10_fixed_initial_food Op.pauseClick initialState { initialState with isPaused := false }
    [] [] (by decide)

/-- No direction equals its own direct opposite. -/
theorem Direction.ne_opposite (d : Direction) : d ≠ d.opposite := by
  cases d <;> simp [Direction.opposite]

/-- C6: an arrow key whose requested direction is the exact opposite of the
stored direction leaves the direction unchanged, and any key pressed while
the game is over leaves the whole state unchanged (the handler's early
`if (gameOver) return`). -/
theorem C6_opposite_input_noop (s : GameState) (k : Key) (d : Direction)
    (hreq : requestedDirection k = some d) :
    (d = s.direction.opposite → (handleKeyDown k s).direction = s.direction) ∧
    (s.gameOver = true → handleKeyDown k s = s) := by
  constructor
  · intro hopp
    unfold handleKeyDown
    split
    · rfl
    · cases k
      case Space => exact absurd hreq (by simp [requestedDirection])
      all_goals
        injection hreq with hd
        subst hd
        cases hdir : s.direction <;> simp_all [Direction.opposite]
  · intro hov
    unfold handleKeyDown
    simp [hov]

/-- A state in which the game is over (used to witness the game-over
no-ops). -/
def overState : GameState := { initialState with gameOver := true }

/-- Witness for C6: ArrowLeft against a RIGHT-moving snake is rejected, and
the same key in a game-over state changes nothing. -/
theorem C6_witness :
    requestedDirection Key.ArrowLeft = some Direction.LEFT ∧
    (handleKeyDown Key.ArrowLeft initialState).direction = initialState.direction ∧
    handleKeyDown Key.ArrowLeft overState = overState := by
  refine ⟨rfl, ?_, ?_⟩
  · exact (C6_opposite_input_noop initialState Key.ArrowLeft Direction.LEFT rfl).1 (by decide)
  · exact (C6_opposite_input_noop overState Key.ArrowLeft Direction.LEFT rfl).2 rfl

/-- C7 (amended): of the two pause entry points, only the spacebar path is
guarded by `gameOver`; the on-screen Pause button flips `isPaused`
unconditionally, in every state. Both flip `isPaused` and nothing else when
the game is not over. -/
theorem C7_amended_pause_entry_points (s : GameState) :
    handleKeyDown Key.Space s =
      (if s.gameOver then s else { s with isPaused := !s.isPaused }) ∧
    pauseButtonClick s = { s with isPaused := !s.isPaused } := by
  constructor
  · unfold handleKeyDown
    split <;> simp_all
  · rfl

/-- A game-over state that is not paused. -/
def overUnpaused : GameState := { initialState with gameOver := true, isPaused := false }

/-- C7 counterexample: with the game over, clicking the Pause button is not
a no-op — it still flips `isPaused`. -/
theorem C7_counterexample :
    overUnpaused.gameOver = true ∧ overUnpaused.isPaused = false ∧
    (pauseButtonClick overUnpaused).isPaused = true := by decide

/-- C5 (amended): a single key event can never leave the stored direction
equal to the direct opposite of the direction stored just before it: an
opposite request is rejected against the stored value. (Two inputs between
consecutive ticks can still reverse relative to the previous tick — see the
counterexample.) -/
theorem C5_amended_single_input_no_reversal (s : GameState) (k : Key) :
    (handleKeyDown k s).direction ≠ Direction.opposite s.direction := by
  unfold handleKeyDown
  split
  · cases hdir : s.direction <;> simp [Direction.opposite]
  · cases k <;> cases hdir : s.direction <;> simp_all [Direction.opposite]

/-- A playing state: snake at (10, 10) heading RIGHT, food out of the way. -/
def reversalStart : GameState := { initialState with isPaused := false }

/-- The state one tick later: the snake moved to (11, 10), still RIGHT. -/
def reversalMid : GameState := { reversalStart with snake := [⟨11, 10⟩] }

/-- C5 counterexample: after a tick that consumed RIGHT, the inputs Up then
Left are both accepted (each is checked only against the stored direction),
so the next tick consumes LEFT — the direct opposite of the direction the
previous tick consumed. -/
theorem C5_counterexample :
    moveSnake [⟨10, 10⟩] [] reversalStart = some (reversalMid, []) ∧
    (handleKeyDown Key.ArrowLeft (handleKeyDown Key.ArrowUp reversalMid)).direction =
      Direction.opposite reversalStart.direction ∧
    moveSnake [⟨11, 10⟩] [] (handleKeyDown Key.ArrowLeft (handleKeyDown Key.ArrowUp reversalMid)) =
      some ({ reversalMid with direction := .LEFT, snake := [⟨10, 10⟩] }, []) := by
  decide

/-- C2: a tick whose new head hits a wall or any pre-tick snake cell
(tail included) only flips `gameOver` to true — snake, food, direction,
score, high score, speed and pause flag all keep their prior values, and no
random draw is consumed. -/
theorem C2_collision_only_sets_gameOver (closureSnake : List Pos) (s : GameState)
    (head0 : Pos) (tail : List Pos) (rng : Rng) (hs : s.snake = head0 :: tail)
    (hcol : wallHit (newHead head0 s.direction) = true ∨
            isPositionOccupied s.snake (newHead head0 s.direction) = true) :
    moveSnake closureSnake rng s = some ({ s with gameOver := true }, rng) := by
  rw [moveSnake_cons closureSnake s head0 tail rng hs]
  rcases hcol with hw | hself
  · rw [if_pos hw]
  · by_cases hw : wallHit (newHead head0 s.direction) = true
    · rw [if_pos hw]
    · rw [if_neg hw, if_pos hself]

/-- A playing state with the head on the left wall, moving LEFT. -/
def wallState : GameState :=
  { initialState with snake := [⟨0, 5⟩], direction := .LEFT, isPaused := false }

/-- Witness for C2: the spec's wall scenario — head at (0, 5) facing LEFT;
one tick only sets `gameOver`. -/
theorem C2_witness :
    moveSnake [⟨0, 5⟩] [] wallState = some ({ wallState with gameOver := true }, []) :=
  C2_collision_only_sets_gameOver [⟨0, 5⟩] wallState ⟨0, 5⟩ [] [] rfl (Or.inl (by decide))

/-- C3: a successful tick never shrinks the snake; when it does not end the
game, the length grows by exactly one — with the new head prepended and the
tail kept — precisely when the new head lands on the food, and stays the
same otherwise. -/
theorem C3_length_step_law (closureSnake : List Pos) (s s' : GameState) (head0 : Pos)
    (tail : List Pos) (rng rng' : Rng) (hs : s.snake = head0 :: tail)
    (_hov : s.gameOver = false)
    (hrun : moveSnake closureSnake rng s = some (s', rng')) :
    s.snake.length ≤ s'.snake.length ∧
    (s'.gameOver = false →
      (if (newHead head0 s.direction).x == s.food.x
          && (newHead head0 s.direction).y == s.food.y
       then s'.snake = newHead head0 s.direction :: s.snake ∧
            s'.snake.length = s.snake.length + 1
       else s'.snake.length = s.snake.length)) := by
  rw [moveSnake_cons closureSnake s head0 tail rng hs] at hrun
  split at hrun
  · simp only [Option.some.injEq, Prod.mk.injEq] at hrun
    obtain ⟨h1, h2⟩ := hrun
    subst h1
    exact ⟨le_refl _, fun hov' => by simp at hov'⟩
  · split at hrun
    · simp only [Option.some.injEq, Prod.mk.injEq] at hrun
      obtain ⟨h1, h2⟩ := hrun
      subst h1
      exact ⟨le_refl _, fun hov' => by simp at hov'⟩
    · split at hrun
      · rename_i heat
        cases hreject : rejectLoop closureSnake rng with
        | none => rw [hreject] at hrun; cases hrun
        | some p =>
          obtain ⟨newFood, rng₂⟩ := p
          rw [hreject] at hrun
          dsimp only at hrun
          simp only [Option.some.injEq, Prod.mk.injEq] at hrun
          obtain ⟨h1, h2⟩ := hrun
          subst h1
          refine ⟨?_, fun _ => ?_⟩
          · dsimp
            simp [hs]
          · rw [if_pos heat]
            exact ⟨rfl, by simp⟩
      · rename_i heat
        simp only [Option.some.injEq, Prod.mk.injEq] at hrun
        obtain ⟨h1, h2⟩ := hrun
        subst h1
        refine ⟨?_, fun _ => ?_⟩
        · dsimp
          rw [List.dropLast_cons_of_ne_nil (by simp [hs]), hs]
          simp
        · rw [if_neg heat]
          dsimp
          rw [List.dropLast_cons_of_ne_nil (by simp [hs]), hs]
          simp [hs]

/-- The spec's eating scenario: snake at (10, 10) facing RIGHT, food at
(11, 10), playing. -/
def eatState : GameState := { initialState with food := ⟨11, 10⟩, isPaused := false }

/-- The state the eating tick produces when the redraw lands on (1, 1). -/
def eatResult : GameState :=
  { eatState with snake := [⟨11, 10⟩, ⟨10, 10⟩], food := ⟨1, 1⟩, score := 10 }

/-- Witness for C3 at the eating scenario: the snake grows from one to two
segments, new head prepended. -/
theorem C3_witness :
    eatState.snake.length ≤ eatResult.snake.length ∧
    (eatResult.gameOver = false →
      (if (newHead ⟨10, 10⟩ eatState.direction).x == eatState.food.x
          && (newHead ⟨10, 10⟩ eatState.direction).y == eatState.food.y
       then eatResult.snake = newHead ⟨10, 10⟩ eatState.direction :: eatState.snake ∧
            eatResult.snake.length = eatState.snake.length + 1
       else eatResult.snake.length = eatState.snake.length)) :=
  C3_length_step_law [⟨10, 10⟩] eatState eatResult ⟨10, 10⟩ [] [(1, 1)] [] rfl rfl (by decide)

/-- C4 (amended): starting from a speed in [50, 150], a tick keeps it in
[50, 150] and never raises it; on a tick that does not end the game the
speed drops by 10 (floored at 50) exactly when the head lands on the food
AND the *pre-increment* score is a positive multiple of 50 — the source
tests the closure's `score` before `setScore(prev => prev + 10)` lands —
and restart resets the speed to 150. -/
theorem C4_amended_speed_law (closureSnake : List Pos) (s s' : GameState) (head0 : Pos)
    (tail : List Pos) (rng rng' : Rng) (hs : s.snake = head0 :: tail)
    (_hov : s.gameOver = false) (hlo : 50 ≤ s.speed) (hhi : s.speed ≤ 150)
    (hrun : moveSnake closureSnake rng s = some (s', rng')) :
    (50 ≤ s'.speed ∧ s'.speed ≤ 150) ∧ s'.speed ≤ s.speed ∧
    (s'.gameOver = false →
      s'.speed = if ((newHead head0 s.direction).x == s.food.x
                      && (newHead head0 s.direction).y == s.food.y)
                    ∧ 0 < s.score ∧ s.score % 50 = 0
                 then max (s.speed - 10) 50 else s.speed) ∧
    (∀ (s₀ : GameState) (r : Nat × Nat), (initGame r s₀).speed = 150) := by
  rw [moveSnake_cons closureSnake s head0 tail rng hs] at hrun
  split at hrun
  · simp only [Option.some.injEq, Prod.mk.injEq] at hrun
    obtain ⟨h1, h2⟩ := hrun
    subst h1
    exact ⟨⟨hlo, hhi⟩, le_refl _, fun hov' => by simp at hov', fun s₀ r => rfl⟩
  · split at hrun
    · simp only [Option.some.injEq, Prod.mk.injEq] at hrun
      obtain ⟨h1, h2⟩ := hrun
      subst h1
      exact ⟨⟨hlo, hhi⟩, le_refl _, fun hov' => by simp at hov', fun s₀ r => rfl⟩
    · split at hrun
      · rename_i heat
        cases hreject : rejectLoop closureSnake rng with
        | none => rw [hreject] at hrun; cases hrun
        | some p =>
          obtain ⟨newFood, rng₂⟩ := p
          rw [hreject] at hrun
          dsimp only at hrun
          simp only [Option.some.injEq, Prod.mk.injEq] at hrun
          obtain ⟨h1, h2⟩ := hrun
          subst h1
          refine ⟨?_, ?_, fun _ => ?_, fun s₀ r => rfl⟩
          · dsimp only
            split
            · exact ⟨le_max_right _ _, max_le (by omega) (by omega)⟩
            · exact ⟨hlo, hhi⟩
          · dsimp only
            split
            · exact max_le (by omega) hlo
            · exact le_refl _
          · dsimp only
            simp [heat]
      · rename_i heat
        simp only [Option.some.injEq, Prod.mk.injEq] at hrun
        obtain ⟨h1, h2⟩ := hrun
        subst h1
        refine ⟨⟨hlo, hhi⟩, le_refl _, fun _ => ?_, fun s₀ r => rfl⟩
        dsimp only
        rw [if_neg fun hc => heat hc.1]

/-- An eating tick whose pre-increment score is exactly 50. -/
def rampState : GameState :=
  { initialState with food := ⟨11, 10⟩, isPaused := false, score := 50 }

/-- The state that tick produces: score 60, speed lowered to 140. -/
def rampResult : GameState :=
  { rampState with snake := [⟨11, 10⟩, ⟨10, 10⟩], food := ⟨1, 1⟩, score := 60, speed := 140 }

/-- Witness for C4 at a ramping tick: pre-increment score 50, speed
150 → 140. -/
theorem C4_witness :
    (50 ≤ rampResult.speed ∧ rampResult.speed ≤ 150) ∧ rampResult.speed ≤ rampState.speed ∧
    (rampResult.gameOver = false →
      rampResult.speed =
        if ((newHead ⟨10, 10⟩ rampState.direction).x == rampState.food.x
             && (newHead ⟨10, 10⟩ rampState.direction).y == rampState.food.y)
           ∧ 0 < rampState.score ∧ rampState.score % 50 = 0
        then max (rampState.speed - 10) 50 else rampState.speed) ∧
    (∀ (s₀ : GameState) (r : Nat × Nat), (initGame r s₀).speed = 150) :=
  C4_amended_speed_law [⟨10, 10⟩] rampState rampResult ⟨10, 10⟩ [] [(1, 1)] [] rfl rfl
    (by decide) (by decide) (by decide)

/-- An eating tick whose pre-increment score is 40 (so the produced score
is 50). -/
def crossState : GameState :=
  { initialState with food := ⟨11, 10⟩, isPaused := false, score := 40 }

/-- The state that tick produces: score 50, speed untouched. -/
def crossResult : GameState :=
  { crossState with snake := [⟨11, 10⟩, ⟨10, 10⟩], food := ⟨1, 1⟩, score := 50 }

/-- C4 counterexample: an eating tick takes the score from 40 to 50 — the
score produced by the +10 increment is a positive multiple of 50 — yet the
speed stays 150, because the source tests the pre-increment score (40). -/
theorem C4_counterexample :
    moveSnake [⟨10, 10⟩] [(1, 1)] crossState = some (crossResult, []) ∧
    crossResult.score = 50 ∧ 0 < crossResult.score ∧ crossResult.score % 50 = 0 ∧
    crossResult.speed = crossState.speed := by decide

/-- Whatever cell the rejection loop returns is unoccupied in the list it
was checked against. -/
theorem rejectLoop_avoids (occupied : List Pos) (rng rng' : Rng) (f : Pos)
    (h : rejectLoop occupied rng = some (f, rng')) :
    isPositionOccupied occupied f = false := by
  induction rng generalizing rng' with
  | nil => cases h
  | cons r rest ih =>
    obtain ⟨rx, ry⟩ := r
    rw [rejectLoop] at h
    split at h
    · exact ih rng' h
    · rename_i hfree
      simp only [Option.some.injEq, Prod.mk.injEq] at h
      obtain ⟨h1, h2⟩ := h
      subst h1
      simpa using hfree

/-- C1 (amended): the only validated placement is the eat case, and the
list it is validated against is the snake the rejection loop's closure
captured at the game-loop effect's last setup — not the current snake. A
tick either leaves the food where it was, or places it on a cell unoccupied
in that captured list; nothing stronger holds: the captured list excludes
the newly prepended head and, because `snake` is missing from the effect's
dependency array, lags the live snake by every pure-movement tick since the
capture, and the restart placement is not validated at all (see the
counterexample for all three failures of the claim as stated). -/
theorem C1_amended_placement_checked_against_captured_list (closureSnake : List Pos)
    (s s' : GameState) (rng rng' : Rng)
    (hrun : moveSnake closureSnake rng s = some (s', rng')) :
    s'.food = s.food ∨ isPositionOccupied closureSnake s'.food = false := by
  cases hs : s.snake with
  | nil => rw [moveSnake, hs] at hrun; cases hrun
  | cons head0 tail =>
    rw [moveSnake_cons closureSnake s head0 tail rng hs] at hrun
    split at hrun
    · simp only [Option.some.injEq, Prod.mk.injEq] at hrun
      obtain ⟨h1, h2⟩ := hrun
      subst h1
      exact Or.inl rfl
    · split at hrun
      · simp only [Option.some.injEq, Prod.mk.injEq] at hrun
        obtain ⟨h1, h2⟩ := hrun
        subst h1
        exact Or.inl rfl
      · split at hrun
        · cases hreject : rejectLoop closureSnake rng with
          | none => rw [hreject] at hrun; cases hrun
          | some p =>
            obtain ⟨newFood, rng₂⟩ := p
            rw [hreject] at hrun
            dsimp only at hrun
            simp only [Option.some.injEq, Prod.mk.injEq] at hrun
            obtain ⟨h1, h2⟩ := hrun
            subst h1
            exact Or.inr (rejectLoop_avoids closureSnake rng rng₂ newFood hreject)
        · simp only [Option.some.injEq, Prod.mk.injEq] at hrun
          obtain ⟨h1, h2⟩ := hrun
          subst h1
          exact Or.inl rfl

/-- The state the eating tick produces when the first redraw is the new
head's own cell: even a fresh captured list excludes the new head, so the
loop accepts it. -/
def eatOnHeadResult : GameState :=
  { eatState with snake := [⟨11, 10⟩, ⟨10, 10⟩], food := ⟨11, 10⟩, score := 10 }

/-- Start of the stale-closure trace: the game-loop effect last ran its
setup with the snake at (4, 5), heading RIGHT towards food at (7, 5). -/
def staleStart : GameState :=
  { initialState with snake := [⟨4, 5⟩], food := ⟨7, 5⟩, isPaused := false }

/-- After one movement tick: snake at (5, 5). No effect dependency changed,
so the captured closure list is still `[(4, 5)]`. -/
def staleMid1 : GameState := { staleStart with snake := [⟨5, 5⟩] }

/-- After two movement ticks: snake at (6, 5); closure still `[(4, 5)]`. -/
def staleMid2 : GameState := { staleStart with snake := [⟨6, 5⟩] }

/-- The third tick eats at (7, 5); the draw (6, 5) passes the check against
the stale list `[(4, 5)]`, so the food lands on (6, 5) — a cell of the
pre-tick snake. -/
def staleEnd : GameState :=
  { staleStart with snake := [⟨7, 5⟩, ⟨6, 5⟩], food := ⟨6, 5⟩, score := 10 }

/-- C1 counterexample, all three failures of the claim as stated:
(a) an eating tick can place the food exactly on the newly prepended head,
a cell of the post-tick snake, since even a fresh captured list excludes
that head; (b) with `snake` absent from the game-loop effect's dependency
array, two pure-movement ticks leave the rejection loop checking the
two-tick-stale list `[(4, 5)]`, so the eat at (7, 5) places the food on
(6, 5), a cell of the snake both before and after the tick; (c) a restart
places the food with no check at all, so the draw (10, 10) puts it on the
snake's only cell. -/
theorem C1_counterexample :
    (moveSnake [⟨10, 10⟩] [(11, 10)] eatState = some (eatOnHeadResult, []) ∧
      isPositionOccupied eatOnHeadResult.snake eatOnHeadResult.food = true) ∧
    (moveSnake [⟨4, 5⟩] [] staleStart = some (staleMid1, []) ∧
      moveSnake [⟨4, 5⟩] [] staleMid1 = some (staleMid2, []) ∧
      moveSnake [⟨4, 5⟩] [(6, 5)] staleMid2 = some (staleEnd, []) ∧
      isPositionOccupied staleMid2.snake staleEnd.food = true ∧
      isPositionOccupied staleEnd.snake staleEnd.food = true) ∧
    isPositionOccupied (initGame (10, 10) initialState).snake
      (initGame (10, 10) initialState).food = true := by decide

/-- Witness for C1's amended law at the stale-closure eat: the placed cell
(6, 5) is indeed unoccupied in the captured list `[(4, 5)]` — even though
it sits on the live snake. -/
theorem C1_witness :
    staleEnd.food = staleMid2.food ∨
    isPositionOccupied [⟨4, 5⟩] staleEnd.food = false :=
  C1_amended_placement_checked_against_captured_list [⟨4, 5⟩] staleMid2 staleEnd
    [(6, 5)] [] (by decide)

/-- A tick never writes `highScore`; only the high-score effect does. -/
theorem moveSnake_highScore_eq (closureSnake : List Pos) (s t : GameState) (rng rng₂ : Rng)
    (h : moveSnake closureSnake rng s = some (t, rng₂)) : t.highScore = s.highScore := by
  cases hs : s.snake with
  | nil => rw [moveSnake, hs] at h; cases h
  | cons head0 tail =>
    rw [moveSnake_cons closureSnake s head0 tail rng hs] at h
    split at h
    · simp only [Option.some.injEq, Prod.mk.injEq] at h
      obtain ⟨h1, h2⟩ := h
      subst h1
      rfl
    · split at h
      · simp only [Option.some.injEq, Prod.mk.injEq] at h
        obtain ⟨h1, h2⟩ := h
        subst h1
        rfl
      · split at h
        · cases hreject : rejectLoop closureSnake rng with
          | none => rw [hreject] at h; cases h
          | some p =>
            obtain ⟨nf, r2⟩ := p
            rw [hreject] at h
            dsimp only at h
            simp only [Option.some.injEq, Prod.mk.injEq] at h
            obtain ⟨h1, h2⟩ := h
            subst h1
            rfl
        · simp only [Option.some.injEq, Prod.mk.injEq] at h
          obtain ⟨h1, h2⟩ := h
          subst h1
          rfl

/-- The high-score effect can only raise `highScore`. -/
theorem highScoreEffect_le (s : GameState) : s.highScore ≤ (highScoreEffect s).highScore := by
  unfold highScoreEffect
  split
  · rename_i h
    exact le_of_lt h.2
  · exact le_refl _

/-- When the game is over and the score is strictly larger, the effect
promotes it. -/
theorem highScoreEffect_gameOver_update (s : GameState) (h1 : s.gameOver = true)
    (h2 : s.highScore < s.score) : (highScoreEffect s).highScore = s.score := by
  unfold highScoreEffect
  rw [if_pos ⟨h1, h2⟩]

/-- Across any single operation, `highScore` never decreases. -/
theorem step_highScore_mono (op : Op) (s t : GameState) (rng rng₂ : Rng)
    (h : step op (s, rng) = some (t, rng₂)) : s.highScore ≤ t.highScore := by
  cases op with
  | tick =>
    rw [step] at h
    split at h
    · simp only [Option.some.injEq, Prod.mk.injEq] at h
      obtain ⟨h1, h2⟩ := h
      subst h1
      exact highScoreEffect_le s
    · cases hmove : moveSnake s.snake rng s with
      | none => rw [hmove] at h; cases h
      | some p =>
        obtain ⟨u, r2⟩ := p
        rw [hmove] at h
        dsimp only at h
        simp only [Option.some.injEq, Prod.mk.injEq] at h
        obtain ⟨h1, h2⟩ := h
        subst h1
        exact (moveSnake_highScore_eq s.snake s u rng r2 hmove).symm.le.trans (highScoreEffect_le u)
  | key k =>
    rw [step] at h
    simp only [Option.some.injEq, Prod.mk.injEq] at h
    obtain ⟨h1, h2⟩ := h
    subst h1
    exact ((handleKeyDown_projections k s).2.2.2.2.1).symm.le.trans (highScoreEffect_le _)
  | pauseClick =>
    rw [step] at h
    simp only [Option.some.injEq, Prod.mk.injEq] at h
    obtain ⟨h1, h2⟩ := h
    subst h1
    exact highScoreEffect_le (pauseButtonClick s)
  | restartClick =>
    cases rng with
    | nil => rw [step] at h; cases h
    | cons r rng0 =>
      rw [step] at h
      simp only [Option.some.injEq, Prod.mk.injEq] at h
      obtain ⟨h1, h2⟩ := h
      subst h1
      exact highScoreEffect_le (initGame r s)

/-- Across any sequence of operations, `highScore` never decreases. -/
theorem runOps_highScore_mono (ops : List Op) (s t : GameState) (rng rng₂ : Rng)
    (h : runOps ops (s, rng) = some (t, rng₂)) : s.highScore ≤ t.highScore := by
  induction ops generalizing s rng with
  | nil =>
    rw [runOps] at h
    simp only [Option.some.injEq, Prod.mk.injEq] at h
    obtain ⟨h1, h2⟩ := h
    subst h1
    exact le_refl _
  | cons op ops ih =>
    rw [runOps] at h
    cases hstep : step op (s, rng) with
    | none => rw [hstep] at h; cases h
    | some p =>
      obtain ⟨u, r2⟩ := p
      rw [hstep] at h
      dsimp only at h
      exact (step_highScore_mono op s u rng r2 hstep).trans (ih u r2 h)

/-- C8: when an operation flips `gameOver` to true and the score exceeds the
prior high score, the high-score effect sets `highScore` to that score;
`highScore` never decreases across any operation nor across any whole
session (restarts included); and a restart keeps `highScore` while zeroing
`score` and clearing `gameOver`. -/
theorem C8_highscore_law (op : Op) (ops : List Op) (s s' s'' : GameState)
    (rng rng' rng'' : Rng)
    (hstep : step op (s, rng) = some (s', rng'))
    (hrun : runOps ops (s, rng) = some (s'', rng'')) :
    s.highScore ≤ s'.highScore ∧
    (s.gameOver = false → s'.gameOver = true → s.highScore < s'.score →
      s'.highScore = s'.score) ∧
    (op = Op.restartClick → s'.highScore = s.highScore ∧ s'.score = 0 ∧ s'.gameOver = false) ∧
    s.highScore ≤ s''.highScore := by
  refine ⟨step_highScore_mono op s s' rng rng' hstep, ?_, ?_,
    runOps_highScore_mono ops s s'' rng rng'' hrun⟩
  · intro h1 h2 h3
    cases op with
    | tick =>
      rw [step] at hstep
      split at hstep
      · simp only [Option.some.injEq, Prod.mk.injEq] at hstep
        obtain ⟨e1, e2⟩ := hstep
        subst e1
        rw [(highScoreEffect_projections s).2.2.2.1, h1] at h2
        cases h2
      · cases hmove : moveSnake s.snake rng s with
        | none => rw [hmove] at hstep; cases hstep
        | some p =>
          obtain ⟨u, r2⟩ := p
          rw [hmove] at hstep
          dsimp only at hstep
          simp only [Option.some.injEq, Prod.mk.injEq] at hstep
          obtain ⟨e1, e2⟩ := hstep
          subst e1
          have hu : u.gameOver = true := by
            rw [← (highScoreEffect_projections u).2.2.2.1]
            exact h2
          have hsc : (highScoreEffect u).score = u.score :=
            (highScoreEffect_projections u).2.2.2.2.2.1
          have hhs : u.highScore = s.highScore := moveSnake_highScore_eq s.snake s u rng r2 hmove
          rw [hsc]
          refine highScoreEffect_gameOver_update u hu ?_
          rw [hhs]
          rw [hsc] at h3
          exact h3
    | key k =>
      rw [step] at hstep
      simp only [Option.some.injEq, Prod.mk.injEq] at hstep
      obtain ⟨e1, e2⟩ := hstep
      subst e1
      rw [(highScoreEffect_projections _).2.2.2.1, (handleKeyDown_projections k s).2.2.1,
        h1] at h2
      cases h2
    | pauseClick =>
      rw [step] at hstep
      simp only [Option.some.injEq, Prod.mk.injEq] at hstep
      obtain ⟨e1, e2⟩ := hstep
      subst e1
      rw [(highScoreEffect_projections _).2.2.2.1] at h2
      simp only [pauseButtonClick] at h2
      rw [h1] at h2
      cases h2
    | restartClick =>
      cases rng with
      | nil => rw [step] at hstep; cases hstep
      | cons r rng0 =>
        rw [step] at hstep
        simp only [Option.some.injEq, Prod.mk.injEq] at hstep
        obtain ⟨e1, e2⟩ := hstep
        subst e1
        rw [(highScoreEffect_projections _).2.2.2.1] at h2
        simp [initGame] at h2
  · intro hop
    subst hop
    cases rng with
    | nil => rw [step] at hstep; cases hstep
    | cons r rng0 =>
      rw [step] at hstep
      simp only [Option.some.injEq, Prod.mk.injEq] at hstep
      obtain ⟨e1, e2⟩ := hstep
      subst e1
      refine ⟨?_, ?_, ?_⟩
      · simp [highScoreEffect, initGame]
      · simp [highScoreEffect, initGame]
      · simp [highScoreEffect, initGame]

/-- Witness for C8 at a concrete step and a concrete session: a Pause click
on the mount state. -/
theorem C8_witness :
    initialState.highScore ≤ ({ initialState with isPaused := false } : GameState).highScore ∧
    (initialState.gameOver = false →
      ({ initialState with isPaused := false } : GameState).gameOver = true →
      initialState.highScore < ({ initialState with isPaused := false } : GameState).score →
      ({ initialState with isPaused := false } : GameState).highScore =
        ({ initialState with isPaused := false } : GameState).score) ∧
    (Op.pauseClick = Op.restartClick →
      ({ initialState with isPaused := false } : GameState).highScore =
          initialState.highScore ∧
        ({ initialState with isPaused := false } : GameState).score = 0 ∧
        ({ initialState with isPaused := false } : GameState).gameOver = false) ∧
    initialState.highScore ≤ ({ initialState with isPaused := false } : GameState).highScore :=
  C8_highscore_law Op.pauseClick [Op.pauseClick] initialState
    { initialState with isPaused := false } { initialState with isPaused := false }
    [] [] [] (by decide) (by decide)
